import Mathlib

/-!
Verification of the MNA (modified nodal analysis) transfer-function
program against its specification.  The program reads a SPICE-style
netlist, accumulates per-node symbolic current contributions, builds
KCL and voltage-source constraint equations, solves them symbolically
and divides two solved unknowns.

The embedding below is a shallow translation of `main.py`:
  * sympy expressions become the free term algebra `Expr`
    (the claims under scrutiny only concern which terms the program
    registers, not computer-algebra simplification);
  * the process-wide mutable globals `node_list`, `equations`,
    `unknowns`, `values` become the record `AnalysisState`, threaded
    explicitly;
  * Python exceptions (IndexError, ValueError, KeyError) become
    `Except String`;
  * Python `dict` becomes an insertion-ordered association list;
  * numeric component values are modelled exactly in `ℚ` (the Python
    code mixes `int` and `float`; no claim depends on binary rounding);
  * `str.lower` / `str.isnumeric` / `int(...)` are modelled on the
    ASCII range, which covers every input the claims mention (the
    micro sign `µ` is handled separately, as in the source).
-/

namespace TransferFuncCalc

/-- Symbolic expressions: a free term algebra standing in for sympy
expressions.  `sym` is `sp.symbols name`, `num` an integer literal. -/
inductive Expr where
  | num : Int → Expr
  | sym : String → Expr
  | add : Expr → Expr → Expr
  | sub : Expr → Expr → Expr
  | mul : Expr → Expr → Expr
  | div : Expr → Expr → Expr
  deriving DecidableEq, Repr

/-- Equation `lhs = rhs`, the embedding of `sp.Eq(lhs, rhs)`. -/
structure Equation where
  lhs : Expr
  rhs : Expr
  deriving DecidableEq, Repr

/-- Analysis state: the four process-wide accumulators of `main.py`
(`node_list`, `equations`, `unknowns`, `values`).  `node_list` maps a
node name to its list of signed current contributions; `unknowns`
holds symbol names in append order; `values` maps component names to
parsed numeric values. -/
structure AnalysisState where
  node_list : List (String × List Expr)
  equations : List Equation
  unknowns : List String
  values : List (String × ℚ)
  deriving DecidableEq, Repr

/-- Initial state: all four accumulators empty. -/
def initState : AnalysisState := ⟨[], [], [], []⟩

/-- Decidable equality of embedded run results, for evaluating the
pipeline on concrete netlists inside proofs. -/
instance {ε α : Type} [DecidableEq ε] [DecidableEq α] : DecidableEq (Except ε α) :=
  fun x y =>
    match x, y with
    | .ok a, .ok b =>
      match decEq a b with
      | isTrue h => isTrue (by rw [h])
      | isFalse h => isFalse (by intro hc; cases hc; exact h rfl)
    | .error a, .error b =>
      match decEq a b with
      | isTrue h => isTrue (by rw [h])
      | isFalse h => isFalse (by intro hc; cases hc; exact h rfl)
    | .ok _, .error _ => isFalse (by intro hc; cases hc)
    | .error _, .ok _ => isFalse (by intro hc; cases hc)

/-- Lookup in an insertion-ordered association list (Python `dict`
access / `in dict.keys()`). -/
def alookup {α : Type} (m : List (String × α)) (k : String) : Option α :=
  match m with
  | [] => none
  | (k', v) :: rest => if k' = k then some v else alookup rest k

/-- Python `node_list[node].append(c)`: append `c` to the entry of key
`k`, leaving every other entry (and the key order) unchanged. -/
def dictAppendAt (m : List (String × List Expr)) (k : String) (c : Expr) :
    List (String × List Expr) :=
  m.map (fun p => if p.1 = k then (p.1, p.2 ++ [c]) else p)

/-- Python `d[k] = v`: replace the value at `k` in place, or append a
new entry at the end. -/
def dictSet {α : Type} (m : List (String × α)) (k : String) (v : α) :
    List (String × α) :=
  if (alookup m k).isSome then
    m.map (fun p => if p.1 = k then (p.1, v) else p)
  else
    m ++ [(k, v)]

/-- Python list indexing `l[n]`, raising IndexError when out of range. -/
def listGet {α : Type} (l : List α) (n : Nat) : Except String α :=
  match l[n]? with
  | some x => .ok x
  | none => .error "IndexError: list index out of range"

/-- Comment and directive markers skipped by the classifier
(`TO_IGNORE` in `main.py`). -/
def TO_IGNORE : List String := ["*", ".backanno", ".end"]

/-- ASCII decimal digit test (model of the character class accepted by
Python `str.isnumeric` / `int` on the inputs at hand). -/
def pyIsDigit (c : Char) : Bool :=
  decide (48 ≤ c.toNat ∧ c.toNat ≤ 57)

/-- ASCII model of Python `str.lower` on one character. -/
def pyLowerChar (c : Char) : Char :=
  if 65 ≤ c.toNat ∧ c.toNat ≤ 90 then Char.ofNat (c.toNat + 32) else c

/-- Python `str.strip(c)`: remove every leading and trailing
occurrence of the character `c`. -/
def pyStrip (l : List Char) (c : Char) : List Char :=
  ((l.dropWhile (fun x => decide (x = c))).reverse.dropWhile
    (fun x => decide (x = c))).reverse

/-- Python `str.isnumeric` (ASCII model): nonempty and all digits. -/
def pyIsNumeric (l : List Char) : Bool :=
  !l.isEmpty && l.all pyIsDigit

/-- Value of a digit string read in base 10. -/
def digitsToNat (l : List Char) : Nat :=
  l.foldl (fun a c => 10 * a + (c.toNat - 48)) 0

/-- Python `int(str)`: an optional sign followed by a nonempty run of
digits; anything else is a ValueError. -/
def pyInt (s : List Char) : Option Int :=
  match s with
  | [] => none
  | c :: rest =>
    if c = '-' then
      if rest ≠ [] ∧ rest.all pyIsDigit then some (-(digitsToNat rest : Int)) else none
    else if c = '+' then
      if rest ≠ [] ∧ rest.all pyIsDigit then some ((digitsToNat rest : Int)) else none
    else if (c :: rest).all pyIsDigit then some ((digitsToNat (c :: rest) : Int)) else none

/-- Python `int(str)` with its ValueError (quoting of the literal in
the CPython message elided). -/
def pyIntE (s : List Char) : Except String Int :=
  match pyInt s with
  | some n => .ok n
  | none => .error ("invalid literal for int() with base 10: " ++ String.mk s)

/-- Power of ten as a rational, computed in `Nat` so that concrete
runs reduce in the kernel. -/
def pow10 (k : Nat) : ℚ := ((10 ^ k : Nat) : ℚ)

/-- Python `value[:-n]`. -/
def pyDropLast (n : Nat) (l : List Char) : List Char :=
  l.take (l.length - n)

/-- Python `value.endswith(suffixChars)` on character lists. -/
def endsWithC (l s : List Char) : Bool :=
  decide (l.reverse.take s.length = s.reverse)

/-- Normalization half of the value parser, lines 55-66 of
`add_component` in `main.py`: lowercase, replace the micro sign by
"u", then strip the unit letters h, f, r, v, a from both ends, in that
order. -/
def stripUnits (value : String) : List Char :=
  pyStrip (pyStrip (pyStrip (pyStrip (pyStrip
    ((value.toList.map pyLowerChar).map (fun c => if c = 'µ' then 'u' else c))
    'h') 'f') 'r') 'v') 'a'

/-- Numeric half of the value parser, lines 67-92 of `add_component`
in `main.py`: the `isnumeric` check followed by the scale-suffix chain
meg, mil, t, g, k, m, u, n, p, f; otherwise the component-naming
ValueError. -/
def parse_stripped (component : String) (v : List Char) : Except String ℚ :=
  if pyIsNumeric v then
    match pyIntE v with
    | .error e => .error e
    | .ok n => .ok (n : ℚ)
  else if endsWithC v ['m', 'e', 'g'] then
    match pyIntE (pyDropLast 3 v) with
    | .error e => .error e
    | .ok n => .ok ((n : ℚ) * pow10 6)
  else if endsWithC v ['m', 'i', 'l'] then
    match pyIntE (pyDropLast 3 v) with
    | .error e => .error e
    | .ok n => .ok ((n : ℚ) * (254 / 10) / pow10 6)
  else if endsWithC v ['t'] then
    match pyIntE (pyDropLast 1 v) with
    | .error e => .error e
    | .ok n => .ok ((n : ℚ) * pow10 12)
  else if endsWithC v ['g'] then
    match pyIntE (pyDropLast 1 v) with
    | .error e => .error e
    | .ok n => .ok ((n : ℚ) * pow10 9)
  else if endsWithC v ['k'] then
    match pyIntE (pyDropLast 1 v) with
    | .error e => .error e
    | .ok n => .ok ((n : ℚ) * pow10 3)
  else if endsWithC v ['m'] then
    match pyIntE (pyDropLast 1 v) with
    | .error e => .error e
    | .ok n => .ok ((n : ℚ) / pow10 3)
  else if endsWithC v ['u'] then
    match pyIntE (pyDropLast 1 v) with
    | .error e => .error e
    | .ok n => .ok ((n : ℚ) / pow10 6)
  else if endsWithC v ['n'] then
    match pyIntE (pyDropLast 1 v) with
    | .error e => .error e
    | .ok n => .ok ((n : ℚ) / pow10 9)
  else if endsWithC v ['p'] then
    match pyIntE (pyDropLast 1 v) with
    | .error e => .error e
    | .ok n => .ok ((n : ℚ) / pow10 12)
  else if endsWithC v ['f'] then
    match pyIntE (pyDropLast 1 v) with
    | .error e => .error e
    | .ok n => .ok ((n : ℚ) / pow10 15)
  else
    .error ("Could not interpret value " ++ String.mk v ++ " for component " ++ component)

/-- Engineering-notation value parsing, lines 55-92 of `add_component`
in `main.py`: normalization followed by numeric interpretation. -/
def parse_value (component value : String) : Except String ℚ :=
  parse_stripped component (stripUnits value)

/-- Embedding of `add_component`: parse the value and record it under
the component name (`values[component] = parsed_val`). -/
def add_component (component value : String) (st : AnalysisState) :
    Except String AnalysisState :=
  match parse_value component value with
  | .error e => .error e
  | .ok parsed_val => .ok { st with values := dictSet st.values component parsed_val }

/-- Embedding of `add_positive_current_to_node`: if the node is
already in the ledger, append the current and append `V<node>` to the
unknown registry; otherwise create the node's entry (and register no
unknown). -/
def add_positive_current_to_node (node : String) (current : Expr)
    (st : AnalysisState) : AnalysisState :=
  if (alookup st.node_list node).isSome then
    { st with
      node_list := dictAppendAt st.node_list node current,
      unknowns := st.unknowns ++ ["V" ++ node] }
  else
    { st with node_list := st.node_list ++ [(node, [current])] }

/-- Embedding of `add_negative_current_to_node`: identical to the
positive version with `-1 * current` in place of `current`. -/
def add_negative_current_to_node (node : String) (current : Expr)
    (st : AnalysisState) : AnalysisState :=
  if (alookup st.node_list node).isSome then
    { st with
      node_list := dictAppendAt st.node_list node (Expr.mul (Expr.num (-1)) current),
      unknowns := st.unknowns ++ ["V" ++ node] }
  else
    { st with node_list := st.node_list ++ [(node, [Expr.mul (Expr.num (-1)) current])] }

/-- Embedding of `add_voltage_source`: append the constraint
`Eq(Vsrc_symbol, Vnode_1 - Vnode_2)` and register the source current
unknown. -/
def add_voltage_source (Vnode_1 Vnode_2 Vsrc_symbol : Expr)
    (Vsrc_current : String) (st : AnalysisState) : AnalysisState :=
  { st with
    equations := st.equations ++ [⟨Vsrc_symbol, Expr.sub Vnode_1 Vnode_2⟩],
    unknowns := st.unknowns ++ [Vsrc_current] }

/-- Embedding of `handle_spice_line`: classify one tokenized netlist
record and drive the ledger, equation list and unknown registry.  The
token accesses `line[1]`, `line[2]`, `line[3]` happen, as in the
source, before any state is touched. -/
def handle_spice_line (line : List String) (st : AnalysisState) :
    Except String AnalysisState :=
  match listGet line 0 with
  | .error e => .error e
  | .ok first =>
    if first ∈ TO_IGNORE then .ok st
    else
      match listGet first.toList 0 with
      | .error e => .error e
      | .ok component_type =>
        if component_type = 'R' ∨ component_type = 'C' ∨ component_type = 'L' then
          match listGet line 1 with
          | .error e => .error e
          | .ok node_1 =>
            match listGet line 2 with
            | .error e => .error e
            | .ok node_2 =>
              match listGet line 3 with
              | .error e => .error e
              | .ok value =>
                let name := first
                let Vnode_1 := if node_1 ≠ "0" then Expr.sym ("V" ++ node_1) else Expr.num 0
                let Vnode_2 := if node_2 ≠ "0" then Expr.sym ("V" ++ node_2) else Expr.num 0
                let symbol := Expr.sym name
                let Z :=
                  if component_type = 'R' then symbol
                  else if component_type = 'C' then
                    Expr.div (Expr.num 1) (Expr.mul (Expr.sym "s") symbol)
                  else Expr.mul (Expr.sym "s") symbol
                let I := Expr.div (Expr.sub Vnode_1 Vnode_2) Z
                let st := add_negative_current_to_node node_1 I st
                let st := add_positive_current_to_node node_2 I st
                add_component name value st
        else if component_type = 'V' then
          match listGet line 1 with
          | .error e => .error e
          | .ok node_1 =>
            match listGet line 2 with
            | .error e => .error e
            | .ok node_2 =>
              match listGet line 3 with
              | .error e => .error e
              | .ok value =>
                let name := first
                let Vnode_1 := if node_1 ≠ "0" then Expr.sym ("V" ++ node_1) else Expr.num 0
                let Vnode_2 := if node_2 ≠ "0" then Expr.sym ("V" ++ node_2) else Expr.num 0
                let symbol := Expr.sym name
                let I := Expr.sym ("I" ++ name)
                let st := add_negative_current_to_node node_1 I st
                let st := add_positive_current_to_node node_2 I st
                let st := add_voltage_source Vnode_1 Vnode_2 symbol ("I" ++ name) st
                add_component name value st
        else if component_type = 'I' then
          match listGet line 1 with
          | .error e => .error e
          | .ok node_1 =>
            match listGet line 2 with
            | .error e => .error e
            | .ok node_2 =>
              match listGet line 3 with
              | .error e => .error e
              | .ok value =>
                let name := first
                let I := Expr.sym ("I" ++ name)
                let st := add_negative_current_to_node node_1 I st
                let st := add_positive_current_to_node node_2 I st
                add_component name value st
        else .ok st

/-- Python `sum(currents)`: left fold of `+` starting from the
integer 0. -/
def pySum (l : List Expr) : Expr :=
  l.foldl Expr.add (Expr.num 0)

/-- Embedding of `generate_KCL_equations`: for every ledger entry, in
ledger order, append the equation `sum(currents) = 0`. -/
def generate_KCL_equations (st : AnalysisState) : AnalysisState :=
  { st with
    equations :=
      st.equations ++ st.node_list.map (fun p => Equation.mk (pySum p.2) (Expr.num 0)) }

/-- Embedding of `find_transfer_function`: look the input unknown up
in the solved assignment, then the output unknown (in that order, as
in the source), and return their quotient; a missing key is Python's
KeyError. -/
def find_transfer_function (sols : List (String × Expr))
    (input_var output_var : String) : Except String Expr :=
  match alookup sols input_var with
  | none => .error ("KeyError: " ++ input_var)
  | some input_var_expression =>
    match alookup sols output_var with
    | none => .error ("KeyError: " ++ output_var)
    | some output_var_expression =>
      .ok (Expr.div output_var_expression input_var_expression)

/-- Embedding of the main loop over netlist records: each tokenized
line is handed to `handle_spice_line`; an uncaught exception aborts
the run. -/
def processLines (lines : List (List String)) (st : AnalysisState) :
    Except String AnalysisState :=
  match lines with
  | [] => .ok st
  | l :: rest =>
    match handle_spice_line l st with
    | .ok st' => processLines rest st'
    | .error e => .error e

/-- Run of a whole netlist from the empty state. -/
def runNetlist (lines : List (List String)) : Except String AnalysisState :=
  processLines lines initState

/-- Voltage expression for a node as the specification states it: the
ground node "0" is the constant 0, every other node its symbol
`V<node>`. -/
def spec_node_voltage (n : String) : Expr :=
  if n = "0" then Expr.num 0 else Expr.sym ("V" ++ n)

/-- Branch impedance rule as the specification states it: a resistor
is its symbol, a capacitor `1/(s·symbol)`, an inductor `s·symbol`. -/
def spec_impedance (c : Char) (name : String) : Expr :=
  if c = 'R' then Expr.sym name
  else if c = 'C' then Expr.div (Expr.num 1) (Expr.mul (Expr.sym "s") (Expr.sym name))
  else Expr.mul (Expr.sym "s") (Expr.sym name)

/-- Branch current rule as the specification states it:
`(V_node1 - V_node2) / Z`. -/
def spec_branch_current (c : Char) (name n1 n2 : String) : Expr :=
  Expr.div (Expr.sub (spec_node_voltage n1) (spec_node_voltage n2))
    (spec_impedance c name)

/-! Helper lemmas about list and association-list operations. -/

/-- Mapping a function that fixes every element is the identity. -/
theorem map_id_of {α : Type} (f : α → α) (l : List α) (h : ∀ x ∈ l, f x = x) :
    l.map f = l := by
  induction l with
  | nil => rfl
  | cons a t ih =>
    simp only [List.map_cons, h a (List.mem_cons_self a t)]
    rw [ih (fun x hx => h x (List.mem_cons_of_mem a hx))]

/-- `dropWhile` leaves a list unchanged when the predicate fails on
every element. -/
theorem dropWhile_eq_self_of {α : Type} (p : α → Bool) (l : List α)
    (h : ∀ x ∈ l, p x = false) : l.dropWhile p = l := by
  cases l with
  | nil => rfl
  | cons a t => simp [List.dropWhile_cons, h a (List.mem_cons_self a t)]

/-- Stripping a character that appears at neither end (indeed nowhere)
is a no-op. -/
theorem pyStrip_no_op (l : List Char) (c : Char) (h : ∀ x ∈ l, ¬x = c) :
    pyStrip l c = l := by
  unfold pyStrip
  have hq : ∀ x ∈ l, (decide (x = c)) = false := fun x hx => by simp [h x hx]
  rw [dropWhile_eq_self_of _ _ hq]
  rw [dropWhile_eq_self_of _ _ (fun x hx => hq x (List.mem_reverse.mp hx))]
  exact l.reverse_reverse

/-- Stripping `c` from `d ++ [c]` removes exactly the final `c` when
`c` occurs nowhere in `d`. -/
theorem pyStrip_append_last (d : List Char) (c : Char) (h : ∀ x ∈ d, ¬x = c) :
    pyStrip (d ++ [c]) c = d := by
  unfold pyStrip
  have hq : ∀ x ∈ d, (decide (x = c)) = false := fun x hx => by simp [h x hx]
  cases d with
  | nil => simp [List.dropWhile]
  | cons a t =>
    have h1 : ((a :: t) ++ [c]).dropWhile (fun x => decide (x = c)) = (a :: t) ++ [c] := by
      simp [List.dropWhile_cons, hq a (List.mem_cons_self a t)]
    rw [h1]
    rw [show ((a :: t) ++ [c]).reverse = c :: (a :: t).reverse by simp]
    rw [List.dropWhile_cons]
    simp only [decide_eq_true_eq, if_pos rfl]
    rw [dropWhile_eq_self_of _ _ (fun x hx => hq x (List.mem_reverse.mp hx))]
    exact (a :: t).reverse_reverse

/-- First-match lookup after an in-place append at key `k`. -/
theorem alookup_dictAppendAt_self (m : List (String × List Expr)) (k : String)
    (c : Expr) (l : List Expr) (h : alookup m k = some l) :
    alookup (dictAppendAt m k c) k = some (l ++ [c]) := by
  induction m with
  | nil => simp [alookup] at h
  | cons p t ih =>
    obtain ⟨k', v⟩ := p
    by_cases hk : k' = k
    · subst hk
      have h' : v = l := by simpa [alookup] using h
      subst h'
      have hd : dictAppendAt ((k', v) :: t) k' c = (k', v ++ [c]) :: dictAppendAt t k' c := by
        simp [dictAppendAt]
      rw [hd]
      simp [alookup]
    · have hd : dictAppendAt ((k', v) :: t) k c = (k', v) :: dictAppendAt t k c := by
        simp [dictAppendAt, hk]
      rw [hd]
      simp only [alookup, if_neg hk] at h ⊢
      exact ih h

/-- Lookup after appending a fresh entry at the end. -/
theorem alookup_append_of_none {α : Type} (m : List (String × α)) (k : String)
    (v : α) (h : alookup m k = none) : alookup (m ++ [(k, v)]) k = some v := by
  induction m with
  | nil => simp [alookup]
  | cons p t ih =>
    obtain ⟨k', w⟩ := p
    by_cases hk : k' = k
    · simp [alookup, hk] at h
    · simp only [alookup, if_neg hk] at h
      simpa [alookup, hk] using ih h

/-- A key is absent from an association list iff lookup returns none. -/
theorem alookup_eq_none_iff {α : Type} (m : List (String × α)) (k : String) :
    alookup m k = none ↔ k ∉ m.map Prod.fst := by
  induction m with
  | nil => simp [alookup]
  | cons p t ih =>
    obtain ⟨k', w⟩ := p
    by_cases hk : k' = k
    · subst hk; simp [alookup]
    · simp [alookup, hk, ih, Ne.symm hk]

/-- In-place appending preserves the key sequence. -/
theorem map_fst_dictAppendAt (m : List (String × List Expr)) (k : String)
    (c : Expr) : (dictAppendAt m k c).map Prod.fst = m.map Prod.fst := by
  induction m with
  | nil => rfl
  | cons p t ih =>
    obtain ⟨k', v⟩ := p
    by_cases hk : k' = k <;> simpa [dictAppendAt, hk] using ih

/-- Positive-current registration never duplicates a ledger key. -/
theorem nodup_keys_add_positive (node : String) (cur : Expr) (st : AnalysisState)
    (h : (st.node_list.map Prod.fst).Nodup) :
    ((add_positive_current_to_node node cur st).node_list.map Prod.fst).Nodup := by
  unfold add_positive_current_to_node
  by_cases hs : (alookup st.node_list node).isSome
  · simpa [hs, map_fst_dictAppendAt] using h
  · have hnone : alookup st.node_list node = none := by
      cases hl : alookup st.node_list node with
      | none => rfl
      | some v => rw [hl] at hs; simp at hs
    have hmem : node ∉ st.node_list.map Prod.fst := (alookup_eq_none_iff _ _).mp hnone
    simp [hs, List.nodup_append, h, hmem]

/-- Negative-current registration never duplicates a ledger key. -/
theorem nodup_keys_add_negative (node : String) (cur : Expr) (st : AnalysisState)
    (h : (st.node_list.map Prod.fst).Nodup) :
    ((add_negative_current_to_node node cur st).node_list.map Prod.fst).Nodup := by
  unfold add_negative_current_to_node
  by_cases hs : (alookup st.node_list node).isSome
  · simpa [hs, map_fst_dictAppendAt] using h
  · have hnone : alookup st.node_list node = none := by
      cases hl : alookup st.node_list node with
      | none => rfl
      | some v => rw [hl] at hs; simp at hs
    have hmem : node ∉ st.node_list.map Prod.fst := (alookup_eq_none_iff _ _).mp hnone
    simp [hs, List.nodup_append, h, hmem]

/-- Component-value recording leaves the ledger, the equations and the
unknown registry untouched. -/
theorem add_component_ok (component value : String) (st st' : AnalysisState)
    (h : add_component component value st = .ok st') :
    st'.node_list = st.node_list ∧ st'.equations = st.equations ∧
      st'.unknowns = st.unknowns := by
  unfold add_component at h
  split at h
  · exact absurd h (by simp)
  · obtain rfl : _ = st' := by simpa using h
    exact ⟨rfl, rfl, rfl⟩

/-- One classified record preserves distinctness of the ledger keys. -/
theorem handle_preserves_nodup (line : List String) (st st' : AnalysisState)
    (h : handle_spice_line line st = .ok st')
    (hn : (st.node_list.map Prod.fst).Nodup) :
    (st'.node_list.map Prod.fst).Nodup := by
  simp only [handle_spice_line] at h
  split at h
  · exact absurd h (by simp)
  · split at h
    · obtain rfl : st = st' := by simpa using h
      exact hn
    · split at h
      · exact absurd h (by simp)
      · split at h
        · split at h
          · exact absurd h (by simp)
          · split at h
            · exact absurd h (by simp)
            · split at h
              · exact absurd h (by simp)
              · rw [(add_component_ok _ _ _ _ h).1]
                exact nodup_keys_add_positive _ _ _ (nodup_keys_add_negative _ _ _ hn)
        · split at h
          · split at h
            · exact absurd h (by simp)
            · split at h
              · exact absurd h (by simp)
              · split at h
                · exact absurd h (by simp)
                · rw [(add_component_ok _ _ _ _ h).1]
                  exact nodup_keys_add_positive _ _ _ (nodup_keys_add_negative _ _ _ hn)
          · split at h
            · split at h
              · exact absurd h (by simp)
              · split at h
                · exact absurd h (by simp)
                · split at h
                  · exact absurd h (by simp)
                  · rw [(add_component_ok _ _ _ _ h).1]
                    exact nodup_keys_add_positive _ _ _ (nodup_keys_add_negative _ _ _ hn)
            · obtain rfl : st = st' := by simpa using h
              exact hn

/-- The loop over records preserves distinctness of the ledger keys. -/
theorem processLines_nodup (lines : List (List String)) (st st' : AnalysisState)
    (h : processLines lines st = .ok st')
    (hn : (st.node_list.map Prod.fst).Nodup) :
    (st'.node_list.map Prod.fst).Nodup := by
  induction lines generalizing st with
  | nil =>
    obtain rfl : st = st' := by simpa [processLines] using h
    exact hn
  | cons l rest ih =>
    simp only [processLines] at h
    split at h
    · exact ih _ h (handle_preserves_nodup _ _ _ (by assumption) hn)
    · exact absurd h (by simp)

/-- After a whole run the ledger never lists a node twice. -/
theorem runNetlist_nodup (lines : List (List String)) (st : AnalysisState)
    (h : runNetlist lines = .ok st) : (st.node_list.map Prod.fst).Nodup :=
  processLines_nodup lines initState st h (by simp [initState])

/-- Filtering for an absent key yields nothing. -/
theorem filter_key_nil {α : Type} (m : List (String × α)) (k : String)
    (h : k ∉ m.map Prod.fst) : m.filter (fun p => decide (p.1 = k)) = [] := by
  induction m with
  | nil => rfl
  | cons p t ih =>
    obtain ⟨k', v⟩ := p
    simp only [List.map_cons, List.mem_cons] at h
    push_neg at h
    simp [List.filter_cons, Ne.symm h.1, ih h.2]

/-- With distinct keys, filtering for a present key yields exactly its
single entry. -/
theorem filter_key_single {α : Type} (m : List (String × α)) (k : String) (v : α)
    (hnd : (m.map Prod.fst).Nodup) (h : alookup m k = some v) :
    m.filter (fun p => decide (p.1 = k)) = [(k, v)] := by
  induction m with
  | nil => simp [alookup] at h
  | cons p t ih =>
    obtain ⟨k', w⟩ := p
    simp only [List.map_cons, List.nodup_cons] at hnd
    by_cases hk : k' = k
    · subst hk
      have hw : w = v := by simpa [alookup] using h
      subst hw
      simp [List.filter_cons, filter_key_nil t k' hnd.1]
    · simp only [alookup, if_neg hk] at h
      simp [List.filter_cons, hk, ih hnd.2 h]

/-- Membership survives filtering towards the original list. -/
theorem mem_of_filter_key {α : Type} (m : List (String × α)) (k : String) (v : α)
    (h : m.filter (fun p => decide (p.1 = k)) = [(k, v)]) : (k, v) ∈ m := by
  have : (k, v) ∈ m.filter (fun p => decide (p.1 = k)) := by simp [h]
  exact List.mem_of_mem_filter this

/-! Claim theorems. -/

/-- C3: after all netlist records have been processed, the KCL step
appends, for every distinct non-ground node that received at least one
contribution, exactly one equation stating that the sum of that node's
accumulated current contributions equals zero: the node owns exactly
one ledger entry, the appended equations are in one-to-one
correspondence with the ledger entries, and the node's equation is
`sum(contributions) = 0`. -/
theorem C3_kcl_equations (lines : List (List String)) (st : AnalysisState)
    (k : String) (cs : List Expr) (hrun : runNetlist lines = .ok st)
    (_hk : k ≠ "0") (hcs : alookup st.node_list k = some cs) :
    st.node_list.filter (fun p => decide (p.1 = k)) = [(k, cs)]
    ∧ (generate_KCL_equations st).equations
        = st.equations
          ++ st.node_list.map (fun p => Equation.mk (pySum p.2) (Expr.num 0))
    ∧ Equation.mk (pySum cs) (Expr.num 0) ∈ (generate_KCL_equations st).equations := by
  have hnd := runNetlist_nodup lines st hrun
  have hfil := filter_key_single _ _ _ hnd hcs
  refine ⟨hfil, rfl, ?_⟩
  have hmem : (k, cs) ∈ st.node_list := mem_of_filter_key _ _ _ hfil
  simp only [generate_KCL_equations, List.mem_append, List.mem_map]
  exact Or.inr ⟨(k, cs), hmem, rfl⟩

/-- Branch current of the resistor R1 between nodes 1 and 2
(witness data). -/
def wI12 : Expr :=
  Expr.div (Expr.sub (Expr.sym "V1") (Expr.sym "V2")) (Expr.sym "R1")

/-- Analysis state after the one-record netlist `R1 1 2 10`
(witness data). -/
def wState12 : AnalysisState :=
  { node_list := [("1", [Expr.mul (Expr.num (-1)) wI12]), ("2", [wI12])],
    equations := [], unknowns := [], values := [("R1", 10)] }

/-- Witness for C3 on the concrete netlist `R1 1 2 10` at node 1. -/
theorem C3_kcl_equations_witness :
    wState12.node_list.filter (fun p => decide (p.1 = "1"))
        = [("1", [Expr.mul (Expr.num (-1)) wI12])]
    ∧ (generate_KCL_equations wState12).equations
        = wState12.equations
          ++ wState12.node_list.map (fun p => Equation.mk (pySum p.2) (Expr.num 0))
    ∧ Equation.mk (pySum [Expr.mul (Expr.num (-1)) wI12]) (Expr.num 0)
        ∈ (generate_KCL_equations wState12).equations :=
  C3_kcl_equations [["R1", "1", "2", "10"]] wState12 "1"
    [Expr.mul (Expr.num (-1)) wI12] (by rfl) (by decide) (by rfl)

/-- C10: if the ground node "0" received at least one contribution,
the KCL step also appends a (redundant) KCL equation for ground: the
ledger holds exactly one entry for "0" and its equation
`sum(contributions) = 0` is in the generated equation set. -/
theorem C10_ground_kcl (lines : List (List String)) (st : AnalysisState)
    (cs : List Expr) (hrun : runNetlist lines = .ok st)
    (hcs : alookup st.node_list "0" = some cs) :
    st.node_list.filter (fun p => decide (p.1 = "0")) = [("0", cs)]
    ∧ Equation.mk (pySum cs) (Expr.num 0) ∈ (generate_KCL_equations st).equations := by
  have hnd := runNetlist_nodup lines st hrun
  have hfil := filter_key_single _ _ _ hnd hcs
  refine ⟨hfil, ?_⟩
  have hmem : ("0", cs) ∈ st.node_list := mem_of_filter_key _ _ _ hfil
  simp only [generate_KCL_equations, List.mem_append, List.mem_map]
  exact Or.inr ⟨("0", cs), hmem, rfl⟩

/-- Branch current of the resistor R1 between node 1 and ground
(witness data). -/
def wI10 : Expr :=
  Expr.div (Expr.sub (Expr.sym "V1") (Expr.num 0)) (Expr.sym "R1")

/-- Analysis state after the one-record netlist `R1 1 0 10`
(witness data). -/
def wState10 : AnalysisState :=
  { node_list := [("1", [Expr.mul (Expr.num (-1)) wI10]), ("0", [wI10])],
    equations := [], unknowns := [], values := [("R1", 10)] }

/-- Witness for C10 on the concrete netlist `R1 1 0 10`: ground's
redundant KCL equation is generated. -/
theorem C10_ground_kcl_witness :
    wState10.node_list.filter (fun p => decide (p.1 = "0")) = [("0", [wI10])]
    ∧ Equation.mk (pySum [wI10]) (Expr.num 0)
        ∈ (generate_KCL_equations wState10).equations :=
  C10_ground_kcl [["R1", "1", "0", "10"]] wState10 [wI10] (by rfl) (by rfl)

/-- C4 evidence: on the netlist `R1 1 2 10` the run succeeds, nodes 1
and 2 both carry contributions, yet the unknown registry handed to the
solver is empty — `V1` and `V2` are missing, refuting the claimed
exactly-once invariant. -/
theorem C4_unknown_registry_evidence :
    (runNetlist [["R1", "1", "2", "10"]]).toOption.map
        (fun st => (st.unknowns, (alookup st.node_list "1").isSome,
          (alookup st.node_list "2").isSome))
      = some ([], true, true) := by rfl

/-- C5 evidence: on the netlist `R1 1 0 10 / R2 2 0 10` ground
receives two contributions and the program appends the symbol `V0` to
the unknown registry, refuting the claim that `V0` never appears. -/
theorem C5_ground_unknown_evidence :
    (runNetlist [["R1", "1", "0", "10"], ["R2", "2", "0", "10"]]).toOption.map
        AnalysisState.unknowns = some ["V0"] := by rfl

/-- C6: the transfer-function calculator returns the output unknown's
solved expression divided by the input unknown's; if either name is
missing from the solved assignment it fails (KeyError) instead of
returning a result. -/
theorem C6_transfer_function (sols : List (String × Expr)) (i o : String) :
    (∀ ie oe, alookup sols i = some ie → alookup sols o = some oe →
        find_transfer_function sols i o = .ok (Expr.div oe ie))
    ∧ ((alookup sols i = none ∨ alookup sols o = none) →
        ∃ e, find_transfer_function sols i o = .error e) := by
  constructor
  · intro ie oe hi ho
    simp [find_transfer_function, hi, ho]
  · intro habs
    rcases habs with hi | ho
    · exact ⟨"KeyError: " ++ i, by simp [find_transfer_function, hi]⟩
    · cases hi : alookup sols i with
      | none => exact ⟨"KeyError: " ++ i, by simp [find_transfer_function, hi]⟩
      | some ie => exact ⟨"KeyError: " ++ o, by simp [find_transfer_function, hi, ho]⟩

/-- Witness for C6: a two-entry solved assignment yields the quotient,
and a missing output unknown yields an error. -/
theorem C6_transfer_function_witness :
    find_transfer_function [("Vin", Expr.sym "A"), ("Vout", Expr.sym "B")]
        "Vin" "Vout" = .ok (Expr.div (Expr.sym "B") (Expr.sym "A"))
    ∧ ∃ e, find_transfer_function [("Vin", Expr.sym "A")] "Vin" "Vout" = .error e :=
  ⟨(C6_transfer_function [("Vin", Expr.sym "A"), ("Vout", Expr.sym "B")]
      "Vin" "Vout").1 _ _ (by decide) (by decide),
    (C6_transfer_function [("Vin", Expr.sym "A")] "Vin" "Vout").2 (Or.inr (by decide))⟩

/-- C7 evidence: the parser maps "10k" to 10000 and "1meg" to 1000000
and rejects "10xyz" with the component-naming ValueError, but on
"2.2u" it raises an uncaught ValueError from `int("2.2")` instead of
producing 0.0000022 as the claim states. -/
theorem C7_value_parsing_evidence :
    parse_value "R1" "10k" = .ok 10000
    ∧ parse_value "C3" "1meg" = .ok 1000000
    ∧ parse_value "R2" "10xyz"
        = .error "Could not interpret value 10xyz for component R2"
    ∧ parse_value "C2" "2.2u"
        = .error "invalid literal for int() with base 10: 2.2"
    ∧ parse_value "C2" "2.2u" ≠ .ok ((22 : ℚ) / pow10 7) := by
  refine ⟨by with_unfolding_all rfl, by with_unfolding_all rfl, by rfl, by rfl, ?_⟩
  intro h
  rw [show parse_value "C2" "2.2u"
        = (Except.error "invalid literal for int() with base 10: 2.2" : Except String ℚ)
      from rfl] at h
  cases h

/-- Digit characters satisfy the ASCII bounds. -/
theorem pyIsDigit_bounds (c : Char) (h : pyIsDigit c = true) :
    48 ≤ c.toNat ∧ c.toNat ≤ 57 := by
  simpa [pyIsDigit] using h

/-- Lowercasing fixes a digit. -/
theorem pyLowerChar_digit (c : Char) (h : pyIsDigit c = true) :
    pyLowerChar c = c := by
  obtain ⟨h1, h2⟩ := pyIsDigit_bounds c h
  unfold pyLowerChar
  rw [if_neg]
  omega

/-- A digit differs from any non-digit character. -/
theorem digit_ne (c x : Char) (h : pyIsDigit c = true)
    (hx : pyIsDigit x = false) : ¬c = x := by
  intro he
  subst he
  rw [h] at hx
  exact Bool.noConfusion hx

/-- C8 counterexample: the parser maps "10f" to the bare number 10
(the trailing "f" is stripped as a unit suffix first), not to the
femto-scaled 10·10⁻¹⁵ the claim requires. -/
theorem C8_femto_counterexample :
    parse_value "C1" "10f" = .ok 10 ∧ (10 : ℚ) ≠ 10 / pow10 15 := by
  refine ⟨by rfl, ?_⟩
  rw [pow10]
  norm_num

/-- C8 amended: for every nonempty digit string `d`, the parser maps
`d ++ "f"` to the bare integer value of `d`: the trailing "f" is
removed by the unit-suffix strip before any scale-suffix check, so the
`isnumeric` branch fires and the femto branch never applies. -/
theorem C8_femto_amended (d : List Char) (comp : String) (hne : d ≠ [])
    (hdig : ∀ c ∈ d, pyIsDigit c = true) :
    parse_value comp (String.mk (d ++ ['f'])) = .ok ((digitsToNat d : ℚ)) := by
  have hfd : ∀ x ∈ d, ¬x = 'f' := fun x hx => digit_ne x 'f' (hdig x hx) (by decide)
  have h1 : (String.mk (d ++ ['f'])).toList.map pyLowerChar = d ++ ['f'] := by
    rw [show (String.mk (d ++ ['f'])).toList = d ++ ['f'] from rfl]
    apply map_id_of
    intro x hx
    rcases List.mem_append.mp hx with hx | hx
    · exact pyLowerChar_digit x (hdig x hx)
    · simp only [List.mem_singleton] at hx
      subst hx
      rfl
  have h2 : (d ++ ['f']).map (fun c => if c = 'µ' then 'u' else c) = d ++ ['f'] := by
    apply map_id_of
    intro x hx
    rcases List.mem_append.mp hx with hx | hx
    · exact if_neg (digit_ne x 'µ' (hdig x hx) (by decide))
    · simp only [List.mem_singleton] at hx
      subst hx
      rfl
  have h3 : pyStrip (d ++ ['f']) 'h' = d ++ ['f'] := by
    apply pyStrip_no_op
    intro x hx
    rcases List.mem_append.mp hx with hx | hx
    · exact digit_ne x 'h' (hdig x hx) (by decide)
    · simp only [List.mem_singleton] at hx
      subst hx
      decide
  have h4 : pyStrip (d ++ ['f']) 'f' = d := pyStrip_append_last d 'f' hfd
  have h5 : pyStrip d 'r' = d :=
    pyStrip_no_op d 'r' (fun x hx => digit_ne x 'r' (hdig x hx) (by decide))
  have h6 : pyStrip d 'v' = d :=
    pyStrip_no_op d 'v' (fun x hx => digit_ne x 'v' (hdig x hx) (by decide))
  have h7 : pyStrip d 'a' = d :=
    pyStrip_no_op d 'a' (fun x hx => digit_ne x 'a' (hdig x hx) (by decide))
  have hnum : pyIsNumeric d = true := by
    unfold pyIsNumeric
    rw [List.all_eq_true.mpr hdig]
    cases d with
    | nil => exact absurd rfl hne
    | cons a t => rfl
  have hint : pyInt d = some ((digitsToNat d : Int)) := by
    cases d with
    | nil => exact absurd rfl hne
    | cons a t =>
      have ha := hdig a (List.mem_cons_self a t)
      simp only [pyInt]
      rw [if_neg (digit_ne a '-' ha (by decide))]
      rw [if_neg (digit_ne a '+' ha (by decide))]
      rw [if_pos (List.all_eq_true.mpr hdig)]
  have hv : stripUnits (String.mk (d ++ ['f'])) = d := by
    unfold stripUnits
    rw [h1, h2, h3, h4, h5, h6, h7]
  show parse_stripped comp (stripUnits (String.mk (d ++ ['f']))) = _
  rw [hv]
  unfold parse_stripped
  rw [if_pos hnum]
  simp only [pyIntE, hint]
  rw [Int.cast_natCast]

/-- Witness for the amended C8 at the digit string "10": the parser
maps "10f" to the bare 10. -/
theorem C8_femto_amended_witness :
    parse_value "C1" (String.mk (['1', '0'] ++ ['f'])) = .ok ((digitsToNat ['1', '0'] : ℚ)) :=
  C8_femto_amended ['1', '0'] "C1" (by decide) (by decide)

/-- Record type codes R, C, L, V, I are never ignore-list markers. -/
theorem element_not_ignored (name : String) (c : Char)
    (h : name.toList[0]? = some c) (hstar : ¬c = '*') (hdot : ¬c = '.') :
    name ∉ TO_IGNORE := by
  intro hmem
  simp only [TO_IGNORE, List.mem_cons, List.not_mem_nil, or_false] at hmem
  rcases hmem with rfl | rfl | rfl
  · exact hstar (by simpa using h.symm)
  · exact hdot (by simpa using h.symm)
  · exact hdot (by simpa using h.symm)

/-- C9: an element record whose type code is R, C, L, V or I but which
has fewer than four fields fails with the (IndexError) parse failure,
and since the failure precedes every ledger, equation and registry
update, nothing is built from the record. -/
theorem C9_malformed_record (name : String) (rest : List String)
    (st : AnalysisState) (c : Char) (hc : name.toList[0]? = some c)
    (htype : c = 'R' ∨ c = 'C' ∨ c = 'L' ∨ c = 'V' ∨ c = 'I')
    (hshort : (name :: rest).length < 4) :
    handle_spice_line (name :: rest) st
      = .error "IndexError: list index out of range" := by
  have hni : name ∉ TO_IGNORE := by
    apply element_not_ignored name c hc
    · rcases htype with rfl | rfl | rfl | rfl | rfl <;> decide
    · rcases htype with rfl | rfl | rfl | rfl | rfl <;> decide
  rcases rest with _ | ⟨a, _ | ⟨b, _ | ⟨x, t⟩⟩⟩
  · simp only [handle_spice_line, listGet, List.getElem?_cons_zero,
      List.getElem?_cons_succ, List.getElem?_nil, if_neg hni, hc]
    rcases htype with rfl | rfl | rfl | rfl | rfl <;> rfl
  · simp only [handle_spice_line, listGet, List.getElem?_cons_zero,
      List.getElem?_cons_succ, List.getElem?_nil, if_neg hni, hc]
    rcases htype with rfl | rfl | rfl | rfl | rfl <;> rfl
  · simp only [handle_spice_line, listGet, List.getElem?_cons_zero,
      List.getElem?_cons_succ, List.getElem?_nil, if_neg hni, hc]
    rcases htype with rfl | rfl | rfl | rfl | rfl <;> rfl
  · simp only [List.length_cons] at hshort
    omega

/-- Witness for C9: the two-field record `R1 1` fails with the parse
failure. -/
theorem C9_malformed_record_witness :
    handle_spice_line ["R1", "1"] initState
      = .error "IndexError: list index out of range" :=
  C9_malformed_record "R1" ["1"] initState 'R' rfl (Or.inl rfl) (by decide)

/-- Registering a negative current appends `-1 * current` to the
node's ledger entry (creating the entry when absent). -/
theorem alookup_add_negative_self (node : String) (cur : Expr) (s0 : AnalysisState) :
    alookup (add_negative_current_to_node node cur s0).node_list node
      = some ((alookup s0.node_list node).getD []
          ++ [Expr.mul (Expr.num (-1)) cur]) := by
  unfold add_negative_current_to_node
  cases hl : alookup s0.node_list node with
  | none => simp [hl, alookup_append_of_none _ node _ hl]
  | some l => simp [hl, alookup_dictAppendAt_self _ node _ _ hl]

/-- Registering a positive current appends the current itself to the
node's ledger entry (creating the entry when absent). -/
theorem alookup_add_positive_self (node : String) (cur : Expr) (s0 : AnalysisState) :
    alookup (add_positive_current_to_node node cur s0).node_list node
      = some ((alookup s0.node_list node).getD [] ++ [cur]) := by
  unfold add_positive_current_to_node
  cases hl : alookup s0.node_list node with
  | none => simp [hl, alookup_append_of_none _ node _ hl]
  | some l => simp [hl, alookup_dictAppendAt_self _ node _ _ hl]

/-- C1: an R, C or L record is processed by computing the impedance Z
(symbol for R, `1/(s·symbol)` for C, `s·symbol` for L), deriving the
branch current `(V_n1 - V_n2)/Z` with ground's voltage the constant 0,
and registering it as a negative contribution at node 1 and a positive
contribution of identical magnitude at node 2 in the node ledger,
before recording the component value. -/
theorem C1_passive_branch (name n1 n2 v : String) (rest : List String)
    (st : AnalysisState) (c : Char) (hc : name.toList[0]? = some c)
    (hR : c = 'R' ∨ c = 'C' ∨ c = 'L') :
    handle_spice_line (name :: n1 :: n2 :: v :: rest) st
      = add_component name v
          (add_positive_current_to_node n2 (spec_branch_current c name n1 n2)
            (add_negative_current_to_node n1 (spec_branch_current c name n1 n2) st))
    ∧ (∀ node cur s0,
        alookup (add_negative_current_to_node node cur s0).node_list node
          = some ((alookup s0.node_list node).getD []
              ++ [Expr.mul (Expr.num (-1)) cur]))
    ∧ (∀ node cur s0,
        alookup (add_positive_current_to_node node cur s0).node_list node
          = some ((alookup s0.node_list node).getD [] ++ [cur])) := by
  refine ⟨?_, fun node cur s0 => alookup_add_negative_self node cur s0,
    fun node cur s0 => alookup_add_positive_self node cur s0⟩
  have hni : name ∉ TO_IGNORE := by
    refine element_not_ignored name c hc ?_ ?_ <;>
      (rcases hR with rfl | rfl | rfl <;> decide)
  simp only [handle_spice_line, listGet, List.getElem?_cons_zero,
    List.getElem?_cons_succ, hni, if_false, hc]
  rw [if_pos hR]
  rcases hR with rfl | rfl | rfl <;>
    (by_cases e1 : n1 = "0" <;> by_cases e2 : n2 = "0" <;>
      simp [spec_branch_current, spec_impedance, spec_node_voltage, e1, e2])

/-- Witness for C1: the record `R1 1 2 10` from the empty state. -/
theorem C1_passive_branch_witness :
    handle_spice_line ["R1", "1", "2", "10"] initState
      = add_component "R1" "10"
          (add_positive_current_to_node "2" (spec_branch_current 'R' "R1" "1" "2")
            (add_negative_current_to_node "1" (spec_branch_current 'R' "R1" "1" "2")
              initState)) :=
  (C1_passive_branch "R1" "1" "2" "10" [] initState 'R' rfl (Or.inl rfl)).1

/-- C2: a V record is processed by introducing the fresh current
unknown `I<name>`, registering it as a negative contribution at node 1
and a positive one at node 2, appending exactly one constraint
equation `symbol = V_n1 - V_n2` (ground's voltage the constant 0), and
appending the current unknown to the unknown registry. -/
theorem C2_voltage_source (name n1 n2 v : String) (rest : List String)
    (st : AnalysisState) (hc : name.toList[0]? = some 'V') :
    handle_spice_line (name :: n1 :: n2 :: v :: rest) st
      = add_component name v
          (add_voltage_source (spec_node_voltage n1) (spec_node_voltage n2)
            (Expr.sym name) ("I" ++ name)
            (add_positive_current_to_node n2 (Expr.sym ("I" ++ name))
              (add_negative_current_to_node n1 (Expr.sym ("I" ++ name)) st)))
    ∧ (∀ V1 V2 w cur s0,
        (add_voltage_source V1 V2 w cur s0).equations
            = s0.equations ++ [Equation.mk w (Expr.sub V1 V2)]
          ∧ (add_voltage_source V1 V2 w cur s0).unknowns = s0.unknowns ++ [cur]
          ∧ (add_voltage_source V1 V2 w cur s0).node_list = s0.node_list)
    ∧ (∀ node cur s0,
        alookup (add_negative_current_to_node node cur s0).node_list node
          = some ((alookup s0.node_list node).getD []
              ++ [Expr.mul (Expr.num (-1)) cur]))
    ∧ (∀ node cur s0,
        alookup (add_positive_current_to_node node cur s0).node_list node
          = some ((alookup s0.node_list node).getD [] ++ [cur])) := by
  refine ⟨?_, fun V1 V2 w cur s0 => ⟨rfl, rfl, rfl⟩,
    fun node cur s0 => alookup_add_negative_self node cur s0,
    fun node cur s0 => alookup_add_positive_self node cur s0⟩
  have hni : name ∉ TO_IGNORE :=
    element_not_ignored name 'V' hc (by decide) (by decide)
  simp only [handle_spice_line, listGet, List.getElem?_cons_zero,
    List.getElem?_cons_succ, hni, if_false, hc]
  simp only [if_true]
  by_cases e1 : n1 = "0" <;> by_cases e2 : n2 = "0" <;>
    simp [spec_node_voltage, e1, e2]

/-- Witness for C2: the record `V1 1 0 1` from the empty state. -/
theorem C2_voltage_source_witness :
    handle_spice_line ["V1", "1", "0", "1"] initState
      = add_component "V1" "1"
          (add_voltage_source (spec_node_voltage "1") (spec_node_voltage "0")
            (Expr.sym "V1") ("I" ++ "V1")
            (add_positive_current_to_node "0" (Expr.sym ("I" ++ "V1"))
              (add_negative_current_to_node "1" (Expr.sym ("I" ++ "V1"))
                initState))) :=
  (C2_voltage_source "V1" "1" "0" "1" [] initState rfl).1

end TransferFuncCalc
